import Mathlib

/-!
Verification of the spanner-to-mysql converter (`src/spanner2mysql/converter.go`)
of the jack repository.  The converter consumes an intermediate representation
produced by an external parser library; the IR structures below model exactly
the fields the converter reads, following the repository spec's data model for
the parts whose source lives outside this repository.
-/

set_option maxRecDepth 16384

namespace Jack

/-- Modelled from the spec: the external IR's scalar column type tags.  The
spec's `Array(Scalar)` variant is modelled as a tag outside the converter's
seven-entry mapping table, so the converter's map lookup fails for it. -/
inductive ScalarColumnTypeTag
  | Bool
  | Int64
  | Float64
  | String
  | Bytes
  | Date
  | Timestamp
  | Array
  deriving DecidableEq

/-- Modelled from the spec: a column type is a tag plus a length (meaningful
for `String`/`Bytes` only).  The converter compares lengths with 256, and the
unbounded/MAX sentinel is the largest machine integer. -/
structure ColumnType where
  TypeTag : ScalarColumnTypeTag
  Length : Int
  deriving DecidableEq

/-- Modelled from the spec: the unbounded/MAX length sentinel (largest 64-bit
machine integer); the converter only ever compares it with 256. -/
def maxLength : Int := 9223372036854775807

/-- A column of a table.  The Go field `Type` is called `Typ` here because
`Type` is reserved in Lean. -/
structure Column where
  Name : String
  Typ : ColumnType
  NotNull : Bool
  deriving DecidableEq

/-- A primary-key or index key part; the converter reads only the name. -/
structure Key where
  Name : String
  deriving DecidableEq

/-- Interleave clause; the empty table name is Go's zero value and means the
table is not interleaved.  The on-delete field is not read by the converter. -/
structure Cluster where
  TableName : String
  deriving DecidableEq

structure CreateTableStatement where
  TableName : String
  Columns : List Column
  PrimaryKeys : List Key
  Cluster : Cluster
  deriving DecidableEq

structure CreateIndexStatement where
  IndexName : String
  TableName : String
  Unique : Bool
  Keys : List Key
  deriving DecidableEq

structure DDStatements where
  CreateTables : List CreateTableStatement
  CreateIndexes : List CreateIndexStatement
  deriving DecidableEq

/-- The three error values declared at the top of converter.go. -/
inductive GoErr
  | invalidInterleave
  | invalidSpanner
  | invalidKey
  deriving DecidableEq, Repr

structure Spanner2MysqlConverter where
  Strict : Bool
  AllowConvertString : Bool
  AllowShotenIndexName : Bool
  deriving DecidableEq

deriving instance DecidableEq for Except

/-- The fixed document header constant of converter.go. -/
def header : String := "-- Auto-generated by jackup. DO NOT EDIT!\n--\n\n"

/-- MySQL requires fixed size index (constant `pseudoKeyLength`). -/
def pseudoKeyLength : Nat := 255

/-- The `toMysqlType` lookup map of converter.go; `none` models a failed map
lookup. -/
def toMysqlType : ScalarColumnTypeTag → Option String
  | .Bool => some "TINYINT(1)"
  | .Int64 => some "BIGINT"
  | .Float64 => some "DOUBLE"
  | .String => some "VARCHAR"
  | .Bytes => some "BLOB"
  | .Date => some "DATE"
  | .Timestamp => some "TIMESTAMP"
  | .Array => none

/-- Go's `strings.Join`. -/
def goJoin (sep : String) : List String → String
  | [] => ""
  | [s] => s
  | s :: rest => s ++ (sep ++ goJoin sep rest)

/-- `getMysqlType` of converter.go. -/
def getMysqlType (c : Spanner2MysqlConverter) (t : ColumnType) : Except GoErr String :=
  match toMysqlType t.TypeTag with
  | none => .error .invalidSpanner
  | some v =>
    if c.AllowConvertString && t.TypeTag == ScalarColumnTypeTag.String then
      if t.Length > 256 then .ok "TEXT" else .ok (v ++ toString t.Length)
    else .ok v

/-- The `defaultValue` local of `getColumns`: TIMESTAMP doesn't allow implicit
default value. -/
def columnDefault (convertedType : String) (notNull : Bool) : String :=
  if convertedType == "TIMESTAMP" && notNull then "DEFAULT CURRENT_TIMESTAMP" else ""

/-- The `nullability` local of `getColumns`. -/
def columnNullability (notNull : Bool) : String :=
  if notNull then "NOT NULL" else "NULL"

/-- One iteration of the `getColumns` loop: the formatted column definition
line. -/
def columnLine (c : Spanner2MysqlConverter) (col : Column) : Except GoErr String :=
  match getMysqlType c col.Typ with
  | .error e => .error e
  | .ok convertedType =>
    .ok ("  `" ++ (col.Name ++ ("` " ++ (convertedType ++ (" " ++
      (columnNullability col.NotNull ++ (" " ++ columnDefault convertedType col.NotNull)))))))

/-- The `getColumns` loop over the column list. -/
def colLines (c : Spanner2MysqlConverter) : List Column → Except GoErr (List String)
  | [] => .ok []
  | col :: rest =>
    match columnLine c col with
    | .error e => .error e
    | .ok line =>
      match colLines c rest with
      | .error e => .error e
      | .ok lines => .ok (line :: lines)

/-- `getColumns` of converter.go. -/
def getColumns (c : Spanner2MysqlConverter) (ct : CreateTableStatement) :
    Except GoErr (List String) :=
  colLines c ct.Columns

/-- The key text built for one matched primary-key column, including the
fixed-length suffix for TEXT/BLOB mapped types. -/
def pkKeyName (c : Spanner2MysqlConverter) (pk : Key) (col : Column) : String :=
  let kn := "`" ++ (pk.Name ++ "`")
  match getMysqlType c col.Typ with
  | .ok mt =>
    if mt == "TEXT" || mt == "BLOB" then kn ++ ("(" ++ (toString pseudoKeyLength ++ ")"))
    else kn
  | .error _ => kn

/-- The inner loop of `getPrimaryKey`: scan all columns for one key part,
failing on a matched nullable column. -/
def pkNamesForKey (c : Spanner2MysqlConverter) (pk : Key) :
    List Column → Except GoErr (List String)
  | [] => .ok []
  | col :: rest =>
    if col.Name == pk.Name then
      if !col.NotNull then .error .invalidKey
      else
        match pkNamesForKey c pk rest with
        | .error e => .error e
        | .ok ns => .ok (pkKeyName c pk col :: ns)
    else pkNamesForKey c pk rest

/-- The outer loop of `getPrimaryKey` over the declared key parts. -/
def pkNames (c : Spanner2MysqlConverter) (cols : List Column) :
    List Key → Except GoErr (List String)
  | [] => .ok []
  | pk :: rest =>
    match pkNamesForKey c pk cols with
    | .error e => .error e
    | .ok ns =>
      match pkNames c cols rest with
      | .error e => .error e
      | .ok ms => .ok (ns ++ ms)

/-- `getPrimaryKey` of converter.go, including the final length check. -/
def getPrimaryKey (c : Spanner2MysqlConverter) (ct : CreateTableStatement) :
    Except GoErr String :=
  match pkNames c ct.Columns ct.PrimaryKeys with
  | .error e => .error e
  | .ok keyNames =>
    if ct.PrimaryKeys.length == keyNames.length then
      .ok ("  PRIMARY KEY (" ++ (goJoin ", " keyNames ++ ")"))
    else .error .invalidKey

/-- The parent-lookup loop of `getRelation`. -/
def findParent (name : String) : List CreateTableStatement → Option CreateTableStatement
  | [] => none
  | s :: rest => if name == s.TableName then some s else findParent name rest

/-- The shared-key search of `getRelation`.  The Go code stores `keyCol = &cc`
where `cc` is the single (pre-Go-1.22) loop variable and only breaks the inner
loop, so after the outer loop the pointer holds the last child column whenever
any match was found; the fold keeps that cell explicitly. -/
def keyColOf (child parent : CreateTableStatement) : Option Column :=
  let r := child.Columns.foldl
    (fun st cc =>
      ((st.1 || parent.Columns.any fun pc => cc.Name == pc.Name && cc.Typ == pc.Typ), some cc))
    ((false : Bool), (none : Option Column))
  if r.1 then r.2 else none

/-- `getRelation` of converter.go, including the `err == nil || mt == "TEXT"
|| mt == "BLOB"` guard exactly as written in the source. -/
def getRelation (c : Spanner2MysqlConverter) (child : CreateTableStatement)
    (maybeParents : List CreateTableStatement) : Except GoErr String :=
  if child.Cluster.TableName == "" then .ok ""
  else
    match findParent child.Cluster.TableName maybeParents with
    | none => .error .invalidInterleave
    | some parent =>
      match keyColOf child parent with
      | none => .error .invalidInterleave
      | some keyCol =>
        let mtOk : String × Bool :=
          match getMysqlType c keyCol.Typ with
          | .ok v => (v, true)
          | .error _ => ("", false)
        if mtOk.2 || mtOk.1 == "TEXT" || mtOk.1 == "BLOB" then .error .invalidKey
        else
          .ok ("  FOREIGN KEY (`" ++ (keyCol.Name ++ ("`) REFERENCES `" ++
            (parent.TableName ++ ("` (`" ++ (keyCol.Name ++ "`)"))))))

/-- The key list rendering of the `getIndexes` loop. -/
def indexKeys (keys : List Key) : List String :=
  keys.map fun k => "`" ++ (k.Name ++ "`")

/-- `getIndexes` of converter.go: one inline clause per index statement whose
table name matches, with the branches exactly as in the source (`INDEX` for
`Unique`, `UNIQUE` otherwise). -/
def getIndexes (c : Spanner2MysqlConverter) (table : CreateTableStatement) :
    List CreateIndexStatement → List String
  | [] => []
  | i :: rest =>
    if table.TableName == i.TableName then
      let keys := indexKeys i.Keys
      let clause :=
        if i.Unique then
          let iname :=
            if c.AllowShotenIndexName && decide (i.IndexName.utf8ByteSize > 255) then ""
            else i.IndexName
          "  INDEX `" ++ (iname ++ ("` (" ++ (goJoin ", " keys ++ ")")))
        else
          "  UNIQUE (" ++ (goJoin ", " keys ++ ")")
      clause :: getIndexes c table rest
    else getIndexes c table rest

/-- The primary-key branch of the `Convert` loop: an `invalidKey` failure is
swallowed and the clause omitted, any other failure aborts. -/
def pkDefs (cols : List String) (r : Except GoErr String) : Except GoErr (List String) :=
  match r with
  | .ok pk => .ok (cols ++ [pk])
  | .error e => if e == GoErr.invalidKey then .ok cols else .error e

/-- The per-table body of the `Convert` loop: column definitions, then the
primary-key clause (omitted on `invalidKey`), then the relation clause
(omitted on `invalidKey` or when empty), then the index clauses. -/
def tableDefs (c : Spanner2MysqlConverter) (ct : CreateTableStatement)
    (allTables : List CreateTableStatement) (indexes : List CreateIndexStatement) :
    Except GoErr (List String) :=
  match getColumns c ct with
  | .error e => .error e
  | .ok cols =>
    match pkDefs cols (getPrimaryKey c ct) with
    | .error e => .error e
    | .ok d1 =>
      match getRelation c ct allTables with
      | .error e =>
        if e == GoErr.invalidKey then .ok (d1 ++ getIndexes c ct indexes) else .error e
      | .ok rel =>
        .ok ((if rel == "" then d1 else d1 ++ [rel]) ++ getIndexes c ct indexes)

/-- One full `CREATE TABLE` block of the `Convert` loop. -/
def convertTable (c : Spanner2MysqlConverter) (ct : CreateTableStatement)
    (allTables : List CreateTableStatement) (indexes : List CreateIndexStatement) :
    Except GoErr String :=
  match tableDefs c ct allTables indexes with
  | .error e => .error e
  | .ok defs =>
    .ok ("CREATE TABLE " ++ (ct.TableName ++ (" (\n" ++ (goJoin ",\n" defs ++ "\n);\n"))))

/-- The `Convert` loop over all tables, accumulating the blocks in input
order and aborting on the first non-swallowed error. -/
def convertTables (c : Spanner2MysqlConverter) (allTables : List CreateTableStatement)
    (indexes : List CreateIndexStatement) :
    List CreateTableStatement → Except GoErr String
  | [] => .ok ""
  | ct :: rest =>
    match convertTable c ct allTables indexes with
    | .error e => .error e
    | .ok s =>
      match convertTables c allTables indexes rest with
      | .error e => .error e
      | .ok r => .ok (s ++ r)

/-- `Convert` of converter.go: the header followed by all table blocks; on
error the Go function returns the empty string together with the error. -/
def Convert (c : Spanner2MysqlConverter) (statements : DDStatements) : Except GoErr String :=
  match convertTables c statements.CreateTables statements.CreateIndexes
      statements.CreateTables with
  | .error e => .error e
  | .ok s => .ok (header ++ s)

/-- Substring occurrence on character lists: the pattern occurs at some
position. -/
def subOccurs (pat : List Char) : List Char → Bool
  | [] => pat.isEmpty
  | l@(_ :: t) => pat.isPrefixOf l || subOccurs pat t

/-- Substring occurrence on strings. -/
def strContains (s pat : String) : Bool := subOccurs pat.data s.data

/-- Concatenation of a list of strings, in order. -/
def strjoin : List String → String
  | [] => ""
  | s :: rest => s ++ strjoin rest

/-- The key text the claim expects for one primary-key part: the backticked
key-part name, carrying the fixed 255 index-prefix suffix exactly when the
referenced column's mapped target type is TEXT or BLOB. -/
def specKeyTextCols (c : Spanner2MysqlConverter) (cols : List Column) (pk : Key) : String :=
  match cols.find? (fun col => col.Name == pk.Name) with
  | none => ""
  | some col =>
    match getMysqlType c col.Typ with
    | .ok mt =>
      if mt = "TEXT" || mt = "BLOB" then ("`" ++ (pk.Name ++ "`")) ++ "(255)"
      else "`" ++ (pk.Name ++ "`")
    | .error _ => "`" ++ (pk.Name ++ "`")

/-- `specKeyTextCols` over a table's declared columns. -/
def specKeyText (c : Spanner2MysqlConverter) (ct : CreateTableStatement) (pk : Key) : String :=
  specKeyTextCols c ct.Columns pk

/-- A converter configuration with string conversion enabled, used by the
concrete examples below. -/
def convA : Spanner2MysqlConverter := ⟨false, true, false⟩

/-- A converter configuration with all options off. -/
def convN : Spanner2MysqlConverter := ⟨false, false, false⟩

/-- The parent table of the end-to-end interleave example (section 8 of the
spec). -/
def usersT : CreateTableStatement :=
  ⟨"Users", [⟨"id", ⟨.Int64, 0⟩, true⟩], [⟨"id"⟩], ⟨""⟩⟩

/-- The child table of the end-to-end interleave example. -/
def ordersT : CreateTableStatement :=
  ⟨"Orders", [⟨"id", ⟨.Int64, 0⟩, true⟩, ⟨"user_id", ⟨.Int64, 0⟩, true⟩],
    [⟨"id"⟩, ⟨"user_id"⟩], ⟨"Users"⟩⟩

/-- The full converter output for the Users/Orders example document. -/
def usersOrdersOut : String :=
  "-- Auto-generated by jackup. DO NOT EDIT!\n--\n\nCREATE TABLE Users (\n  `id` BIGINT NOT NULL ,\n  PRIMARY KEY (`id`)\n);\nCREATE TABLE Orders (\n  `id` BIGINT NOT NULL ,\n  `user_id` BIGINT NOT NULL ,\n  PRIMARY KEY (`id`, `user_id`)\n);\n"

/-- The converter output for the single-table Users document. -/
def usersOut : String :=
  "-- Auto-generated by jackup. DO NOT EDIT!\n--\n\nCREATE TABLE Users (\n  `id` BIGINT NOT NULL ,\n  PRIMARY KEY (`id`)\n);\n"

/-- A table whose primary key names a nullable column. -/
def badPkT : CreateTableStatement :=
  ⟨"B", [⟨"a", ⟨.Int64, 0⟩, false⟩], [⟨"a"⟩], ⟨""⟩⟩

/-- A table with TEXT-, BLOB- and BIGINT-mapped primary-key columns. -/
def pkSuffixT : CreateTableStatement :=
  ⟨"T", [⟨"a", ⟨.String, 300⟩, true⟩, ⟨"b", ⟨.Bytes, 10⟩, true⟩, ⟨"c", ⟨.Int64, 0⟩, true⟩],
    [⟨"a"⟩, ⟨"b"⟩, ⟨"c"⟩], ⟨""⟩⟩

/-- A table with an Array-typed column. -/
def arrT : CreateTableStatement :=
  ⟨"A", [⟨"arr", ⟨.Array, 0⟩, true⟩], [], ⟨""⟩⟩

/-- A document containing the Array-typed table. -/
def ddArr : DDStatements := ⟨[arrT], []⟩

/-- A table interleaved into a parent absent from the document. -/
def orphanT : CreateTableStatement :=
  ⟨"O", [⟨"id", ⟨.Int64, 0⟩, true⟩], [⟨"id"⟩], ⟨"Nope"⟩⟩

/-- A child table with a nullable primary key and a shared key column with
`usersT`, so that both its primary-key and its relation derivation fail with
the invalid-key error. -/
def ordersBad : CreateTableStatement :=
  ⟨"Orders2", [⟨"id", ⟨.Int64, 0⟩, true⟩, ⟨"flag", ⟨.Int64, 0⟩, false⟩],
    [⟨"flag"⟩], ⟨"Users"⟩⟩

/-- A unique secondary index on the Users table. -/
def idxUnique : CreateIndexStatement := ⟨"idx", "Users", true, [⟨"id"⟩]⟩

/-- A non-unique secondary index on the Users table. -/
def idxPlain : CreateIndexStatement := ⟨"idx2", "Users", false, [⟨"id"⟩]⟩

/-- A definition clause all of whose identifiers are backtick-quoted: a
column line with the backticked column name, a primary-key clause whose key
parts are backticked names (possibly carrying the (255) suffix), a
foreign-key clause with backticked column and parent-table names, or an
index clause with a backticked index name and backticked key names. -/
def quotedDef (c : Spanner2MysqlConverter) (ct : CreateTableStatement)
    (idxs : List CreateIndexStatement) (d : String) : Prop :=
  (∃ col ∈ ct.Columns, ∃ mt, getMysqlType c col.Typ = .ok mt ∧
    d = "  `" ++ (col.Name ++ ("` " ++ (mt ++ (" " ++ (columnNullability col.NotNull ++
      (" " ++ columnDefault mt col.NotNull))))))) ∨
  (∃ keyNames : List String,
    (∀ kn ∈ keyNames, ∃ pk ∈ ct.PrimaryKeys,
      kn = "`" ++ (pk.Name ++ "`") ∨ kn = ("`" ++ (pk.Name ++ "`")) ++ "(255)") ∧
    d = "  PRIMARY KEY (" ++ (goJoin ", " keyNames ++ ")")) ∨
  (∃ keyColName parentName : String,
    d = "  FOREIGN KEY (`" ++ (keyColName ++ ("`) REFERENCES `" ++
      (parentName ++ ("` (`" ++ (keyColName ++ "`)")))))) ∨
  (∃ i ∈ idxs, ∃ iname : String,
    (iname = i.IndexName ∨ iname = "") ∧
    (d = "  INDEX `" ++ (iname ++ ("` (" ++
        (goJoin ", " (i.Keys.map fun k => "`" ++ (k.Name ++ "`")) ++ ")"))) ∨
     d = "  UNIQUE (" ++
        (goJoin ", " (i.Keys.map fun k => "`" ++ (k.Name ++ "`")) ++ ")")))

/-! ### Error classification lemmas -/

theorem getMysqlType_error {c : Spanner2MysqlConverter} {t : ColumnType} {e : GoErr}
    (h : getMysqlType c t = .error e) : e = .invalidSpanner := by
  unfold getMysqlType at h
  split at h
  · exact (Except.error.inj h).symm
  · split at h
    · split at h <;> simp_all
    · simp_all

theorem columnLine_error {c : Spanner2MysqlConverter} {col : Column} {e : GoErr}
    (h : columnLine c col = .error e) : e = .invalidSpanner := by
  unfold columnLine at h
  split at h
  · next h2 => exact getMysqlType_error ((Except.error.inj h) ▸ h2)
  · simp_all

theorem colLines_error {c : Spanner2MysqlConverter} {cols : List Column} {e : GoErr}
    (h : colLines c cols = .error e) : e = .invalidSpanner := by
  induction cols with
  | nil => simp [colLines] at h
  | cons col rest ih =>
    unfold colLines at h
    split at h
    · next h2 => exact columnLine_error ((Except.error.inj h) ▸ h2)
    · split at h
      · next h2 => exact ih ((Except.error.inj h) ▸ h2)
      · simp_all

theorem pkNamesForKey_error {c : Spanner2MysqlConverter} {pk : Key} {cols : List Column}
    {e : GoErr} (h : pkNamesForKey c pk cols = .error e) : e = .invalidKey := by
  induction cols with
  | nil => simp [pkNamesForKey] at h
  | cons col rest ih =>
    unfold pkNamesForKey at h
    split at h
    · split at h
      · exact (Except.error.inj h).symm
      · split at h
        · next h2 => exact ih ((Except.error.inj h) ▸ h2)
        · simp_all
    · exact ih h

theorem pkNames_error {c : Spanner2MysqlConverter} {cols : List Column} {pks : List Key}
    {e : GoErr} (h : pkNames c cols pks = .error e) : e = .invalidKey := by
  induction pks with
  | nil => simp [pkNames] at h
  | cons pk rest ih =>
    unfold pkNames at h
    split at h
    · next h2 => exact pkNamesForKey_error ((Except.error.inj h) ▸ h2)
    · split at h
      · next h2 => exact ih ((Except.error.inj h) ▸ h2)
      · simp_all

theorem getPrimaryKey_error {c : Spanner2MysqlConverter} {ct : CreateTableStatement}
    {e : GoErr} (h : getPrimaryKey c ct = .error e) : e = .invalidKey := by
  unfold getPrimaryKey at h
  split at h
  · next h2 => exact pkNames_error ((Except.error.inj h) ▸ h2)
  · split at h
    · simp_all
    · exact (Except.error.inj h).symm

theorem getRelation_error {c : Spanner2MysqlConverter} {child : CreateTableStatement}
    {ps : List CreateTableStatement} {e : GoErr}
    (h : getRelation c child ps = .error e) :
    e = .invalidInterleave ∨ e = .invalidKey := by
  unfold getRelation at h
  split at h
  · simp_all
  · split at h
    · exact Or.inl (Except.error.inj h).symm
    · split at h
      · exact Or.inl (Except.error.inj h).symm
      · split at h
        · exact Or.inr (Except.error.inj h).symm
        · simp_all

theorem pkDefs_ok (cols : List String) (c : Spanner2MysqlConverter)
    (ct : CreateTableStatement) :
    ∃ d, pkDefs cols (getPrimaryKey c ct) = .ok d := by
  unfold pkDefs
  split
  · exact ⟨_, rfl⟩
  · next e h =>
    have he := getPrimaryKey_error h
    subst he
    exact ⟨cols, rfl⟩

theorem tableDefs_error {c : Spanner2MysqlConverter} {ct : CreateTableStatement}
    {allTables : List CreateTableStatement} {indexes : List CreateIndexStatement}
    {e : GoErr} (h : tableDefs c ct allTables indexes = .error e) :
    e = .invalidSpanner ∨ e = .invalidInterleave := by
  unfold tableDefs at h
  split at h
  · next h2 => exact Or.inl (colLines_error ((Except.error.inj h) ▸ h2))
  · next cols h2 =>
    split at h
    · next h3 =>
      obtain ⟨d, hd⟩ := pkDefs_ok cols c ct
      rw [hd] at h3
      exact absurd h3 (by simp)
    · split at h
      · next h4 =>
        split at h
        · simp_all
        · next hne =>
          rcases getRelation_error ((Except.error.inj h) ▸ h4) with h5 | h5
          · exact Or.inr h5
          · rw [(Except.error.inj h)] at hne
            simp [h5] at hne
      · simp_all

theorem convertTable_error {c : Spanner2MysqlConverter} {ct : CreateTableStatement}
    {allTables : List CreateTableStatement} {indexes : List CreateIndexStatement}
    {e : GoErr} (h : convertTable c ct allTables indexes = .error e) :
    e = .invalidSpanner ∨ e = .invalidInterleave := by
  unfold convertTable at h
  split at h
  · next h2 => exact tableDefs_error ((Except.error.inj h) ▸ h2)
  · simp_all

theorem convertTables_error {c : Spanner2MysqlConverter}
    {allTables : List CreateTableStatement} {indexes : List CreateIndexStatement}
    {tables : List CreateTableStatement} {e : GoErr}
    (h : convertTables c allTables indexes tables = .error e) :
    e = .invalidSpanner ∨ e = .invalidInterleave := by
  induction tables with
  | nil => simp [convertTables] at h
  | cons ct rest ih =>
    unfold convertTables at h
    split at h
    · next h2 => exact convertTable_error ((Except.error.inj h) ▸ h2)
    · split at h
      · next h2 => exact ih ((Except.error.inj h) ▸ h2)
      · simp_all

theorem Convert_error {c : Spanner2MysqlConverter} {dd : DDStatements} {e : GoErr}
    (h : Convert c dd = .error e) : e = .invalidSpanner ∨ e = .invalidInterleave := by
  unfold Convert at h
  split at h
  · next h2 => exact convertTables_error ((Except.error.inj h) ▸ h2)
  · simp_all

/-! ### Claim C1 -/

/-- C1 (code bug): the claim states that for the section-8 Users/Orders
example the resolver matches on the shared column `id` and emits
FOREIGN KEY (`id`) REFERENCES `Users` (`id`).  The source's guard
`err == nil || mt == "TEXT" || mt == "BLOB"` fires whenever the shared
column's type maps successfully, so the resolver returns the invalid-key
error instead, and the converted document contains no FOREIGN KEY clause. -/
theorem C1_relation_eval :
    getRelation convA ordersT [usersT, ordersT] = .error .invalidKey ∧
    Convert convA ⟨[usersT, ordersT], []⟩ = .ok usersOrdersOut ∧
    strContains usersOrdersOut "FOREIGN" = false := by
  refine ⟨rfl, ?_, ?_⟩ <;> decide

/-! ### Claim C2 -/

/-- C2 (code bug): the claim states that a matching index statement yields
UNIQUE (keys...) when unique = true and INDEX name (keys...) when
unique = false; the source has the two branches swapped, emitting
INDEX `name` (keys...) for a unique index and UNIQUE (keys...) for a
non-unique one. -/
theorem C2_indexes_eval :
    getIndexes convA usersT [idxUnique] = ["  INDEX `idx` (`id`)"] ∧
    getIndexes convA usersT [idxPlain] = ["  UNIQUE (`id`)"] :=
  ⟨rfl, rfl⟩

/-! ### Claim C3 -/

/-- C3 (code bug): the claim states String(100) maps to VARCHAR(100); the
source appends the bare length (`"%d"`, not `"(%d)"`), producing VARCHAR100.
The TEXT half of the claim holds when string conversion is enabled; with it
disabled every String column maps to bare VARCHAR. -/
theorem C3_string_eval :
    getMysqlType convA ⟨.String, 100⟩ = .ok "VARCHAR100" ∧
    getMysqlType convA ⟨.String, 300⟩ = .ok "TEXT" ∧
    getMysqlType convA ⟨.String, maxLength⟩ = .ok "TEXT" ∧
    getMysqlType convN ⟨.String, 300⟩ = .ok "VARCHAR" :=
  ⟨rfl, rfl, rfl, rfl⟩

/-! ### Claim C10 -/

/-- C10: Convert never returns the invalid-key error to its caller: any error
it returns is the unsupported-type or invalid-interleave error, and when both
the primary-key derivation and the relation resolution of a table fail with
the invalid-key error the two clauses are silently omitted and the table's
definition list is produced from its columns and indexes alone. -/
theorem C10_no_invalid_key_escape :
    (∀ (c : Spanner2MysqlConverter) (dd : DDStatements) (e : GoErr),
      Convert c dd = .error e → e = .invalidSpanner ∨ e = .invalidInterleave) ∧
    (∀ (c : Spanner2MysqlConverter) (ct : CreateTableStatement)
      (ps : List CreateTableStatement) (idxs : List CreateIndexStatement)
      (cols : List String),
      getColumns c ct = .ok cols →
      getPrimaryKey c ct = .error .invalidKey →
      getRelation c ct ps = .error .invalidKey →
      tableDefs c ct ps idxs = .ok (cols ++ getIndexes c ct idxs)) := by
  constructor
  · exact fun c dd e h => Convert_error h
  · intro c ct ps idxs cols h1 h2 h3
    unfold tableDefs
    rw [h1, h2, h3]
    simp [pkDefs]

/-- Witness for C10: a document with an Array column makes Convert fail with
the unsupported-type error, and the `ordersBad` table has both clause
derivations fail with the invalid-key error yet still produces its column
definitions. -/
theorem C10_no_invalid_key_escape_witness :
    (GoErr.invalidSpanner = .invalidSpanner ∨ GoErr.invalidSpanner = .invalidInterleave) ∧
    tableDefs convA ordersBad [usersT] [] =
      .ok ["  `id` BIGINT NOT NULL ", "  `flag` BIGINT NULL "] :=
  ⟨C10_no_invalid_key_escape.1 convA ddArr GoErr.invalidSpanner rfl,
   C10_no_invalid_key_escape.2 convA ordersBad [usersT] []
     ["  `id` BIGINT NOT NULL ", "  `flag` BIGINT NULL "] rfl rfl rfl⟩

/-! ### Membership-based error propagation -/

theorem findParent_none {name : String} {ps : List CreateTableStatement}
    (h : ∀ p ∈ ps, p.TableName ≠ name) : findParent name ps = none := by
  induction ps with
  | nil => rfl
  | cons p rest ih =>
    unfold findParent
    have hp : (name == p.TableName) = false := by
      simp
      exact fun he => (h p (by simp)) he.symm
    rw [hp]
    simp only [Bool.false_eq_true, if_false]
    exact ih fun q hq => h q (by simp [hq])

theorem tableDefs_error_of_relation {c : Spanner2MysqlConverter}
    {ct : CreateTableStatement} {ps : List CreateTableStatement}
    (idxs : List CreateIndexStatement)
    (h : getRelation c ct ps = .error .invalidInterleave) :
    ∃ e, tableDefs c ct ps idxs = .error e := by
  cases hc : getColumns c ct with
  | error e => exact ⟨e, by simp only [tableDefs, hc]⟩
  | ok cols =>
    obtain ⟨d, hd⟩ := pkDefs_ok cols c ct
    refine ⟨.invalidInterleave, ?_⟩
    simp only [tableDefs, hc, hd, h]
    simp

theorem colLines_error_of_mem {c : Spanner2MysqlConverter} {cols : List Column}
    {col : Column} {e0 : GoErr} (hm : col ∈ cols) (h : columnLine c col = .error e0) :
    ∃ e, colLines c cols = .error e := by
  induction cols with
  | nil => cases hm
  | cons col1 rest ih =>
    unfold colLines
    cases h1 : columnLine c col1 with
    | error e1 => exact ⟨e1, rfl⟩
    | ok line =>
      rcases List.mem_cons.mp hm with heq | hmem
      · subst heq; rw [h] at h1; cases h1
      · obtain ⟨e, he⟩ := ih hmem
        rw [he]
        exact ⟨e, rfl⟩

theorem tableDefs_error_of_col {c : Spanner2MysqlConverter} {ct : CreateTableStatement}
    {col : Column} {e0 : GoErr} (ps : List CreateTableStatement)
    (idxs : List CreateIndexStatement) (hm : col ∈ ct.Columns)
    (h : columnLine c col = .error e0) :
    ∃ e, tableDefs c ct ps idxs = .error e := by
  obtain ⟨e, he⟩ := colLines_error_of_mem hm h
  refine ⟨e, ?_⟩
  unfold tableDefs getColumns
  rw [he]

theorem convertTables_error_of_mem {c : Spanner2MysqlConverter}
    {allTables : List CreateTableStatement} {indexes : List CreateIndexStatement}
    {tables : List CreateTableStatement} {ct : CreateTableStatement}
    (hm : ct ∈ tables) (h : ∃ e0, convertTable c ct allTables indexes = .error e0) :
    ∃ e, convertTables c allTables indexes tables = .error e := by
  induction tables with
  | nil => cases hm
  | cons t1 rest ih =>
    unfold convertTables
    cases h1 : convertTable c t1 allTables indexes with
    | error e1 => exact ⟨e1, rfl⟩
    | ok s =>
      rcases List.mem_cons.mp hm with heq | hmem
      · subst heq
        obtain ⟨e0, he0⟩ := h
        rw [he0] at h1; cases h1
      · obtain ⟨e, he⟩ := ih hmem
        rw [he]
        exact ⟨e, rfl⟩

theorem Convert_error_of_table {c : Spanner2MysqlConverter} {dd : DDStatements}
    {ct : CreateTableStatement} (hm : ct ∈ dd.CreateTables)
    (h : ∃ e0, tableDefs c ct dd.CreateTables dd.CreateIndexes = .error e0) :
    ∃ e, Convert c dd = .error e := by
  obtain ⟨e0, he0⟩ := h
  have hct : ∃ e1, convertTable c ct dd.CreateTables dd.CreateIndexes = .error e1 := by
    refine ⟨e0, ?_⟩
    unfold convertTable
    rw [he0]
  obtain ⟨e, he⟩ := convertTables_error_of_mem hm hct
  refine ⟨e, ?_⟩
  unfold Convert
  rw [he]

/-! ### Claim C6 -/

/-- C6: a table with no interleave clause yields no relation clause and no
error; a table naming a parent absent from the document's tables makes the
resolver fail with the invalid-interleave error, no FOREIGN KEY clause is
produced, and the whole document conversion aborts with an error (the Go
function then returns the empty string). -/
theorem C6_interleave_behavior :
    (∀ (c : Spanner2MysqlConverter) (child : CreateTableStatement)
      (ps : List CreateTableStatement),
      child.Cluster.TableName = "" → getRelation c child ps = .ok "") ∧
    (∀ (c : Spanner2MysqlConverter) (child : CreateTableStatement)
      (ps : List CreateTableStatement),
      child.Cluster.TableName ≠ "" →
      (∀ p ∈ ps, p.TableName ≠ child.Cluster.TableName) →
      getRelation c child ps = .error .invalidInterleave) ∧
    (∀ (c : Spanner2MysqlConverter) (dd : DDStatements) (ct : CreateTableStatement),
      ct ∈ dd.CreateTables →
      getRelation c ct dd.CreateTables = .error .invalidInterleave →
      ∃ e, Convert c dd = .error e) := by
  refine ⟨?_, ?_, ?_⟩
  · intro c child ps h
    simp [getRelation, h]
  · intro c child ps h hp
    have hfp := findParent_none hp
    simp [getRelation, h, hfp]
  · intro c dd ct hm hr
    exact Convert_error_of_table hm (tableDefs_error_of_relation dd.CreateIndexes hr)

/-- Witness for C6: the non-interleaved Users table produces nothing, the
orphan table (parent `Nope` absent) fails with the invalid-interleave error,
and converting a document holding it aborts. -/
theorem C6_interleave_behavior_witness :
    getRelation convA usersT [usersT] = .ok "" ∧
    getRelation convA orphanT [orphanT] = .error .invalidInterleave ∧
    (∃ e, Convert convA ⟨[orphanT], []⟩ = .error e) :=
  ⟨C6_interleave_behavior.1 convA usersT [usersT] rfl,
   C6_interleave_behavior.2.1 convA orphanT [orphanT] (by decide) (by decide),
   C6_interleave_behavior.2.2 convA ⟨[orphanT], []⟩ orphanT (by simp)
     (C6_interleave_behavior.2.1 convA orphanT [orphanT] (by decide) (by decide))⟩

/-! ### Claim C7 -/

/-- C7: a column whose type tag is outside the seven supported scalar tags
(the Array tag in this IR) makes the type mapper fail with the
unsupported-type error, and the whole document conversion aborts with an
error, producing no output (the Go function returns the empty string). -/
theorem C7_unsupported_type :
    (∀ (c : Spanner2MysqlConverter) (t : ColumnType),
      t.TypeTag = .Array → getMysqlType c t = .error .invalidSpanner) ∧
    (∀ (c : Spanner2MysqlConverter) (dd : DDStatements) (ct : CreateTableStatement)
      (col : Column), ct ∈ dd.CreateTables → col ∈ ct.Columns →
      col.Typ.TypeTag = .Array → ∃ e, Convert c dd = .error e) := by
  have hmt : ∀ (c : Spanner2MysqlConverter) (t : ColumnType),
      t.TypeTag = .Array → getMysqlType c t = .error .invalidSpanner := by
    intro c t h
    simp [getMysqlType, h, toMysqlType]
  refine ⟨hmt, ?_⟩
  intro c dd ct col hct hcol h
  have hline : columnLine c col = .error .invalidSpanner := by
    simp [columnLine, hmt c col.Typ h]
  exact Convert_error_of_table hct (tableDefs_error_of_col dd.CreateTables dd.CreateIndexes hcol hline)

/-- Witness for C7: an Array-typed column type fails the mapper, and the
document holding the Array-typed table fails conversion. -/
theorem C7_unsupported_type_witness :
    getMysqlType convA ⟨.Array, 0⟩ = .error .invalidSpanner ∧
    (∃ e, Convert convA ddArr = .error e) :=
  ⟨C7_unsupported_type.1 convA ⟨.Array, 0⟩ rfl,
   C7_unsupported_type.2 convA ddArr arrT ⟨"arr", ⟨.Array, 0⟩, true⟩
     (by simp [ddArr]) (by simp [arrT]) rfl⟩

/-! ### Claim C8 -/

/-- C8: the emitted column-definition line is the backticked name, the mapped
type, the nullability and the default clause, where the default clause is
DEFAULT CURRENT_TIMESTAMP exactly when the mapped type is TIMESTAMP and the
column is not-null (and is empty otherwise), and the nullability is NOT NULL
for a not-null column and NULL otherwise. -/
theorem C8_timestamp_default :
    ∀ (c : Spanner2MysqlConverter) (col : Column) (mt : String),
      getMysqlType c col.Typ = .ok mt →
      columnLine c col = .ok ("  `" ++ (col.Name ++ ("` " ++ (mt ++ (" " ++
        (columnNullability col.NotNull ++ (" " ++ columnDefault mt col.NotNull))))))) ∧
      (columnDefault mt col.NotNull = "DEFAULT CURRENT_TIMESTAMP" ↔
        (mt = "TIMESTAMP" ∧ col.NotNull = true)) ∧
      (columnDefault mt col.NotNull = "DEFAULT CURRENT_TIMESTAMP" ∨
        columnDefault mt col.NotNull = "") ∧
      (col.NotNull = true → columnNullability col.NotNull = "NOT NULL") ∧
      (col.NotNull = false → columnNullability col.NotNull = "NULL") := by
  intro c col mt h
  refine ⟨?_, ?_, ?_, ?_, ?_⟩
  · simp [columnLine, h]
  · by_cases hmt : mt = "TIMESTAMP" <;> cases hN : col.NotNull <;>
      simp [columnDefault, hmt, hN]
  · unfold columnDefault
    split
    · exact Or.inl rfl
    · exact Or.inr rfl
  · intro hN; simp [columnNullability, hN]
  · intro hN; simp [columnNullability, hN]

/-- Witness for C8: a not-null TIMESTAMP column gets the explicit default,
and the same column made nullable does not. -/
theorem C8_timestamp_default_witness :
    columnLine convA ⟨"ts", ⟨.Timestamp, 0⟩, true⟩ =
      .ok "  `ts` TIMESTAMP NOT NULL DEFAULT CURRENT_TIMESTAMP" ∧
    columnLine convA ⟨"ts", ⟨.Timestamp, 0⟩, false⟩ = .ok "  `ts` TIMESTAMP NULL " := by
  constructor
  · exact (C8_timestamp_default convA ⟨"ts", ⟨.Timestamp, 0⟩, true⟩ "TIMESTAMP" rfl).1
  · exact (C8_timestamp_default convA ⟨"ts", ⟨.Timestamp, 0⟩, false⟩ "TIMESTAMP" rfl).1

/-! ### Primary-key derivation lemmas -/

theorem pkNamesForKey_nomatch {c : Spanner2MysqlConverter} {pk : Key} {cols : List Column}
    (h : ∀ col ∈ cols, col.Name ≠ pk.Name) : pkNamesForKey c pk cols = .ok [] := by
  induction cols with
  | nil => rfl
  | cons col rest ih =>
    unfold pkNamesForKey
    rw [if_neg (by simp [h col (by simp)])]
    exact ih fun col2 hm => h col2 (by simp [hm])

theorem pkNamesForKey_ok_length {c : Spanner2MysqlConverter} {pk : Key}
    {cols : List Column} {ns : List String} (h : pkNamesForKey c pk cols = .ok ns) :
    ns.length = (cols.filter (fun col => col.Name == pk.Name)).length := by
  induction cols generalizing ns with
  | nil =>
    have : ns = [] := (Except.ok.inj h).symm
    simp [this]
  | cons col rest ih =>
    unfold pkNamesForKey at h
    by_cases hn : (col.Name == pk.Name) = true
    · rw [if_pos hn] at h
      by_cases hN : (!col.NotNull) = true
      · rw [if_pos hN] at h; cases h
      · rw [if_neg hN] at h
        cases hr : pkNamesForKey c pk rest with
        | error e => rw [hr] at h; cases h
        | ok ms =>
          rw [hr] at h
          have hns : ns = pkKeyName c pk col :: ms := (Except.ok.inj h).symm
          simp [hns, List.filter_cons, hn, ih hr]
    · rw [if_neg hn] at h
      simp [List.filter_cons, hn, ih h]

theorem pkNamesForKey_ok_notNull {c : Spanner2MysqlConverter} {pk : Key}
    {cols : List Column} {ns : List String} (h : pkNamesForKey c pk cols = .ok ns) :
    ∀ col ∈ cols, col.Name = pk.Name → col.NotNull = true := by
  induction cols generalizing ns with
  | nil => simp
  | cons col1 rest ih =>
    unfold pkNamesForKey at h
    intro col hm hname
    by_cases hn : (col1.Name == pk.Name) = true
    · rw [if_pos hn] at h
      by_cases hN : (!col1.NotNull) = true
      · rw [if_pos hN] at h; cases h
      · rw [if_neg hN] at h
        rcases List.mem_cons.mp hm with rfl | hm'
        · simpa using hN
        · cases hr : pkNamesForKey c pk rest with
          | error e => rw [hr] at h; cases h
          | ok ms => exact ih hr col hm' hname
    · rw [if_neg hn] at h
      rcases List.mem_cons.mp hm with rfl | hm'
      · exact absurd (by simp [hname]) hn
      · exact ih h col hm' hname

theorem pkNames_ok_length {c : Spanner2MysqlConverter} {cols : List Column}
    {pks : List Key} {ns : List String} (h : pkNames c cols pks = .ok ns) :
    ns.length =
      (pks.map (fun pk => (cols.filter (fun col => col.Name == pk.Name)).length)).sum := by
  induction pks generalizing ns with
  | nil =>
    have : ns = [] := (Except.ok.inj h).symm
    simp [this]
  | cons pk rest ih =>
    unfold pkNames at h
    cases h1 : pkNamesForKey c pk cols with
    | error e => rw [h1] at h; cases h
    | ok ms =>
      rw [h1] at h
      cases h2 : pkNames c cols rest with
      | error e => rw [h2] at h; cases h
      | ok ms2 =>
        rw [h2] at h
        have hns : ns = ms ++ ms2 := (Except.ok.inj h).symm
        simp [hns, pkNamesForKey_ok_length h1, ih h2]

theorem pkNames_error_of_mem {c : Spanner2MysqlConverter} {cols : List Column}
    {pks : List Key} {pk : Key} (hm : pk ∈ pks)
    (h : pkNamesForKey c pk cols = .error .invalidKey) :
    pkNames c cols pks = .error .invalidKey := by
  induction pks with
  | nil => cases hm
  | cons q rest ih =>
    unfold pkNames
    cases hq : pkNamesForKey c q cols with
    | error e => simp [pkNamesForKey_error hq]
    | ok ns =>
      rcases List.mem_cons.mp hm with rfl | hm'
      · rw [h] at hq; cases hq
      · rw [ih hm']

theorem name_not_in_rest {col col1 : Column} {rest : List Column} {pk : Key}
    (hnd : ((col1 :: rest).map Column.Name).Nodup) (hm : col ∈ rest)
    (hname : col.Name = pk.Name) : (col1.Name == pk.Name) = false := by
  simp only [List.map_cons, List.nodup_cons] at hnd
  simp only [beq_eq_false_iff_ne, ne_eq]
  intro he
  exact hnd.1 (by rw [he, ← hname]; exact List.mem_map_of_mem Column.Name hm)

theorem pkNamesForKey_error_of_nullable {c : Spanner2MysqlConverter} {pk : Key}
    {cols : List Column} {col : Column} (hnd : (cols.map Column.Name).Nodup)
    (hm : col ∈ cols) (hname : col.Name = pk.Name) (hN : col.NotNull = false) :
    pkNamesForKey c pk cols = .error .invalidKey := by
  induction cols with
  | nil => cases hm
  | cons col1 rest ih =>
    unfold pkNamesForKey
    rcases List.mem_cons.mp hm with rfl | hm'
    · rw [if_pos (by simp [hname]), if_pos (by simp [hN])]
    · rw [if_neg (by simp [name_not_in_rest hnd hm' hname])]
      exact ih (by simp only [List.map_cons, List.nodup_cons] at hnd; exact hnd.2) hm'

theorem pkNamesForKey_ok_unique {c : Spanner2MysqlConverter} {pk : Key}
    {cols : List Column} {col : Column} (hnd : (cols.map Column.Name).Nodup)
    (hm : col ∈ cols) (hname : col.Name = pk.Name) (hN : col.NotNull = true) :
    pkNamesForKey c pk cols = .ok [pkKeyName c pk col] := by
  induction cols with
  | nil => cases hm
  | cons col1 rest ih =>
    unfold pkNamesForKey
    rcases List.mem_cons.mp hm with rfl | hm'
    · rw [if_pos (by simp [hname]), if_neg (by simp [hN])]
      have hrest : pkNamesForKey c pk rest = .ok [] := by
        refine pkNamesForKey_nomatch fun col2 hm2 he => ?_
        simp only [List.map_cons, List.nodup_cons] at hnd
        exact hnd.1 (by rw [hname, ← he]; exact List.mem_map_of_mem Column.Name hm2)
      rw [hrest]
    · rw [if_neg (by simp [name_not_in_rest hnd hm' hname])]
      exact ih (by simp only [List.map_cons, List.nodup_cons] at hnd; exact hnd.2) hm'

theorem find_name_unique {cols : List Column} {col : Column} {pk : Key}
    (hnd : (cols.map Column.Name).Nodup) (hm : col ∈ cols) (hname : col.Name = pk.Name) :
    cols.find? (fun col2 => col2.Name == pk.Name) = some col := by
  induction cols with
  | nil => cases hm
  | cons col1 rest ih =>
    rcases List.mem_cons.mp hm with rfl | hm'
    · exact List.find?_cons_of_pos _ (by simp [hname])
    · rw [List.find?_cons_of_neg _ (by simp [name_not_in_rest hnd hm' hname])]
      exact ih (by simp only [List.map_cons, List.nodup_cons] at hnd; exact hnd.2) hm'

theorem filter_name_le_one {cols : List Column} {pk : Key}
    (hnd : (cols.map Column.Name).Nodup) :
    (cols.filter (fun col => col.Name == pk.Name)).length ≤ 1 := by
  induction cols with
  | nil => simp
  | cons col1 rest ih =>
    by_cases hn : (col1.Name == pk.Name) = true
    · have hn2 : col1.Name = pk.Name := by simpa using hn
      have hrest : rest.filter (fun col => col.Name == pk.Name) = [] := by
        rw [List.filter_eq_nil_iff]
        intro col2 hm2 hbeq
        have he : col2.Name = pk.Name := by simpa using hbeq
        simp only [List.map_cons, List.nodup_cons] at hnd
        exact hnd.1 (by rw [hn2, ← he]; exact List.mem_map_of_mem Column.Name hm2)
      simp [List.filter_cons, hn, hrest]
    · simp only [List.filter_cons, hn]
      exact ih (by simp only [List.map_cons, List.nodup_cons] at hnd; exact hnd.2)

theorem filter_name_nil {cols : List Column} {pk : Key}
    (h : ∀ col ∈ cols, col.Name ≠ pk.Name) :
    cols.filter (fun col => col.Name == pk.Name) = [] := by
  rw [List.filter_eq_nil_iff]
  intro col hm hbeq
  exact h col hm (by simpa using hbeq)

theorem sum_le_len {l : List Nat} (h : ∀ x ∈ l, x ≤ 1) : l.sum ≤ l.length := by
  induction l with
  | nil => simp
  | cons a t ih =>
    have ha := h a (by simp)
    have ht := ih fun x hx => h x (by simp [hx])
    simp only [List.sum_cons, List.length_cons]
    omega

theorem sum_eq_len_all_one {l : List Nat} (h : ∀ x ∈ l, x ≤ 1) (he : l.sum = l.length) :
    ∀ x ∈ l, x = 1 := by
  induction l with
  | nil => simp
  | cons a t ih =>
    have ha := h a (by simp)
    have ht := sum_le_len (l := t) fun x hx => h x (by simp [hx])
    simp only [List.sum_cons, List.length_cons] at he
    have ha1 : a = 1 := by omega
    intro x hx
    cases hx with
    | head => exact ha1
    | tail _ hx2 => exact ih (fun y hy => h y (by simp [hy])) (by omega) x hx2

/-! ### Clause shape lemmas -/

theorem ne_pk_of_head {p : String} (c3 : Char) (pl : List Char)
    (hp : p.data = ' ' :: ' ' :: c3 :: pl) (h3 : c3 ≠ 'P') (r inner : String) :
    p ++ r ≠ "  PRIMARY KEY (" ++ inner := by
  intro h
  have hd := congrArg String.data h
  rw [String.data_append, String.data_append, hp] at hd
  have e2 : ("  PRIMARY KEY (" : String).data =
      [' ', ' ', 'P', 'R', 'I', 'M', 'A', 'R', 'Y', ' ', 'K', 'E', 'Y', ' ', '('] := rfl
  rw [e2] at hd
  simp only [List.cons_append, List.nil_append] at hd
  exact h3 (List.cons.inj (List.cons.inj (List.cons.inj hd).2).2).1

theorem columnLine_shape {c : Spanner2MysqlConverter} {col : Column} {line : String}
    (h : columnLine c col = .ok line) : ∃ r, line = "  `" ++ r := by
  unfold columnLine at h
  split at h
  · cases h
  · exact ⟨_, (Except.ok.inj h).symm⟩

theorem colLines_shape {c : Spanner2MysqlConverter} {cols : List Column} {ls : List String}
    (h : colLines c cols = .ok ls) : ∀ l ∈ ls, ∃ r, l = "  `" ++ r := by
  induction cols generalizing ls with
  | nil =>
    have : ls = [] := (Except.ok.inj h).symm
    simp [this]
  | cons col rest ih =>
    unfold colLines at h
    cases h1 : columnLine c col with
    | error e => rw [h1] at h; cases h
    | ok line =>
      rw [h1] at h
      cases h2 : colLines c rest with
      | error e => rw [h2] at h; cases h
      | ok ls2 =>
        rw [h2] at h
        have hls : ls = line :: ls2 := (Except.ok.inj h).symm
        subst hls
        intro l hl
        rcases List.mem_cons.mp hl with rfl | hl'
        · exact columnLine_shape h1
        · exact ih h2 l hl'

theorem getRelation_shape {c : Spanner2MysqlConverter} {child : CreateTableStatement}
    {ps : List CreateTableStatement} {rel : String}
    (h : getRelation c child ps = .ok rel) :
    rel = "" ∨ ∃ r, rel = "  FOREIGN KEY (`" ++ r := by
  unfold getRelation at h
  split at h
  · exact Or.inl (Except.ok.inj h).symm
  · split at h
    · cases h
    · split at h
      · cases h
      · split at h
        · cases h
        · exact Or.inr ⟨_, (Except.ok.inj h).symm⟩

theorem getIndexes_shape {c : Spanner2MysqlConverter} {table : CreateTableStatement}
    {idxs : List CreateIndexStatement} :
    ∀ d ∈ getIndexes c table idxs,
      (∃ r, d = "  INDEX `" ++ r) ∨ (∃ r, d = "  UNIQUE (" ++ r) := by
  induction idxs with
  | nil => simp [getIndexes]
  | cons i rest ih =>
    intro d hd
    unfold getIndexes at hd
    split at hd
    · simp only at hd
      rcases List.mem_cons.mp hd with rfl | hmem
      · split
        · exact Or.inl ⟨_, rfl⟩
        · exact Or.inr ⟨_, rfl⟩
      · exact ih d hmem
    · exact ih d hd

/-! ### Claim C4 -/

/-- C4: when some primary-key part names a column that is not declared on the
table (with the parser-guaranteed uniqueness of column names), or names a
declared column that is nullable, primary-key derivation fails with the
invalid-key error and the table's emitted definition list contains no
PRIMARY KEY clause. -/
theorem C4_invalid_pk (c : Spanner2MysqlConverter) (ct : CreateTableStatement)
    (h1 : (ct.Columns.map Column.Name).Nodup)
    (h2 : ∃ pk ∈ ct.PrimaryKeys,
      (∀ col ∈ ct.Columns, col.Name ≠ pk.Name) ∨
      (∃ col ∈ ct.Columns, col.Name = pk.Name ∧ col.NotNull = false)) :
    getPrimaryKey c ct = .error .invalidKey ∧
    ∀ (ps : List CreateTableStatement) (idxs : List CreateIndexStatement)
      (defs : List String) (d inner : String),
      tableDefs c ct ps idxs = .ok defs → d ∈ defs →
      d ≠ "  PRIMARY KEY (" ++ inner := by
  obtain ⟨pk, hpk, hcase⟩ := h2
  have hpkerr : getPrimaryKey c ct = .error .invalidKey := by
    rcases hcase with hnone | ⟨col, hm, hname, hN⟩
    · cases hpn : pkNames c ct.Columns ct.PrimaryKeys with
      | error e =>
        unfold getPrimaryKey
        rw [hpn, pkNames_error hpn]
      | ok ns =>
        have hlen := pkNames_ok_length hpn
        have hle : ∀ x ∈ (ct.PrimaryKeys.map
            fun q => ((ct.Columns.filter fun col => col.Name == q.Name)).length), x ≤ 1 := by
          intro x hx
          obtain ⟨q, hq, hqx⟩ := List.mem_map.mp hx
          rw [← hqx]
          exact filter_name_le_one h1
        have hzero : (0 : Nat) ∈ (ct.PrimaryKeys.map
            fun q => ((ct.Columns.filter fun col => col.Name == q.Name)).length) := by
          refine List.mem_map.mpr ⟨pk, hpk, ?_⟩
          rw [filter_name_nil hnone]
          rfl
        have hne : ¬ (ct.PrimaryKeys.length = ns.length) := by
          intro heq
          have hall := sum_eq_len_all_one hle
            (by rw [← hlen, ← heq, List.length_map])
          exact absurd (hall 0 hzero) (by decide)
        simp only [getPrimaryKey, hpn]
        rw [if_neg (by simpa using hne)]
    · have h3 := pkNamesForKey_error_of_nullable (c := c) h1 hm hname hN
      have h4 := pkNames_error_of_mem hpk h3
      unfold getPrimaryKey
      rw [h4]
  refine ⟨hpkerr, ?_⟩
  intro ps idxs defs d inner htd hd
  have hcolshape : ∀ {cols : List String}, getColumns c ct = .ok cols →
      ∀ l ∈ cols, ∃ r, l = "  `" ++ r := by
    intro cols hc
    exact colLines_shape hc
  cases hcols : getColumns c ct with
  | error e => simp [tableDefs, hcols] at htd
  | ok cols =>
    have hpkD : pkDefs cols (getPrimaryKey c ct) = .ok cols := by
      rw [hpkerr]
      simp [pkDefs]
    have hidx : ∀ d2 ∈ getIndexes c ct idxs, d2 ≠ "  PRIMARY KEY (" ++ inner := by
      intro d2 hd2
      rcases getIndexes_shape d2 hd2 with ⟨r, hr⟩ | ⟨r, hr⟩
      · rw [hr]
        exact ne_pk_of_head 'I' ['N', 'D', 'E', 'X', ' ', '`']
          (by decide) (by decide) r inner
      · rw [hr]
        exact ne_pk_of_head 'U' ['N', 'I', 'Q', 'U', 'E', ' ', '(']
          (by decide) (by decide) r inner
    have hcol : ∀ d2 ∈ cols, d2 ≠ "  PRIMARY KEY (" ++ inner := by
      intro d2 hd2
      obtain ⟨r, hr⟩ := hcolshape hcols d2 hd2
      rw [hr]
      exact ne_pk_of_head '`' [] (by decide) (by decide) r inner
    cases hrel : getRelation c ct ps with
    | error e =>
      by_cases hek : e = GoErr.invalidKey
      · subst hek
        have hdefs : cols ++ getIndexes c ct idxs = defs := by
          have := htd
          simp only [tableDefs, hcols, hpkD, hrel] at this
          simpa using this
        rw [← hdefs] at hd
        rcases List.mem_append.mp hd with hdc | hdi
        · exact hcol d hdc
        · exact hidx d hdi
      · simp only [tableDefs, hcols, hpkD, hrel] at htd
        rw [if_neg (by simpa using hek)] at htd
        cases htd
    | ok rel =>
      have hdefs : (if (rel == "") = true then cols else cols ++ [rel]) ++
          getIndexes c ct idxs = defs := by
        have := htd
        simp only [tableDefs, hcols, hpkD, hrel] at this
        simpa using this
      rw [← hdefs] at hd
      rcases List.mem_append.mp hd with hdc | hdi
      · by_cases hre : (rel == "") = true
        · rw [if_pos hre] at hdc
          exact hcol d hdc
        · rw [if_neg hre] at hdc
          rcases List.mem_append.mp hdc with hdc2 | hdr
          · exact hcol d hdc2
          · have hdrel : d = rel := by simpa using hdr
            subst hdrel
            rcases getRelation_shape hrel with hempty | ⟨r, hr⟩
            · exact absurd (by simp [hempty]) hre
            · rw [hr]
              exact ne_pk_of_head 'F'
                ['O', 'R', 'E', 'I', 'G', 'N', ' ', 'K', 'E', 'Y', ' ', '(', '`']
                (by decide) (by decide) r inner
      · exact hidx d hdi

/-- Witness for C4: the table whose single primary-key part names the
nullable column `a` fails key derivation, and its converted definition list
(just the column line) has no PRIMARY KEY clause. -/
theorem C4_invalid_pk_witness :
    getPrimaryKey convA badPkT = .error .invalidKey ∧
    "  `a` BIGINT NULL " ≠ "  PRIMARY KEY (" ++ "x" :=
  ⟨(C4_invalid_pk convA badPkT (by decide) (by decide)).1,
   (C4_invalid_pk convA badPkT (by decide) (by decide)).2 [] [] ["  `a` BIGINT NULL "]
     "  `a` BIGINT NULL " "x" (by decide) (by simp)⟩

/-! ### Claim C5 -/

theorem pkKeyName_eval {c : Spanner2MysqlConverter} {pk : Key} {col : Column} {mt : String}
    (h : getMysqlType c col.Typ = .ok mt) :
    pkKeyName c pk col =
      if mt = "TEXT" || mt = "BLOB" then ("`" ++ (pk.Name ++ "`")) ++ "(255)"
      else "`" ++ (pk.Name ++ "`") := by
  unfold pkKeyName
  rw [h]
  by_cases h1 : mt = "TEXT" <;> by_cases h2 : mt = "BLOB" <;>
    simp [h1, h2, show "(" ++ (toString pseudoKeyLength ++ ")") = "(255)" from by decide]

theorem specKeyTextCols_eq {c : Spanner2MysqlConverter} {cols : List Column} {pk : Key}
    {col : Column} (h : cols.find? (fun col2 => col2.Name == pk.Name) = some col) :
    specKeyTextCols c cols pk = pkKeyName c pk col := by
  simp only [specKeyTextCols, h]
  cases hmt : getMysqlType c col.Typ with
  | error e =>
    unfold pkKeyName
    rw [hmt]
  | ok mt =>
    rw [pkKeyName_eval hmt]

theorem pkNames_ok_of_all {c : Spanner2MysqlConverter} {cols : List Column} {pks : List Key}
    (hnd : (cols.map Column.Name).Nodup)
    (hall : ∀ pk ∈ pks, ∃ col ∈ cols, col.Name = pk.Name ∧ col.NotNull = true) :
    pkNames c cols pks = .ok (pks.map (specKeyTextCols c cols)) := by
  induction pks with
  | nil => rfl
  | cons pk rest ih =>
    obtain ⟨col, hm, hname, hN⟩ := hall pk (by simp)
    unfold pkNames
    rw [pkNamesForKey_ok_unique hnd hm hname hN, ih fun q hq => hall q (by simp [hq])]
    simp [specKeyTextCols_eq (find_name_unique hnd hm hname)]

/-- C5: when primary-key derivation succeeds (unique column names, every key
part naming a declared not-null column), the name list inside PRIMARY KEY
( ... ) is, in declared key order, the backticked key-part name carrying the
suffix (255) exactly when the referenced column's mapped type is TEXT or
BLOB, and carrying no suffix otherwise. -/
theorem C5_pk_suffix (c : Spanner2MysqlConverter) (ct : CreateTableStatement)
    (h1 : (ct.Columns.map Column.Name).Nodup)
    (h2 : ∀ pk ∈ ct.PrimaryKeys,
      ∃ col ∈ ct.Columns, col.Name = pk.Name ∧ col.NotNull = true) :
    getPrimaryKey c ct =
      .ok ("  PRIMARY KEY (" ++
        (goJoin ", " (ct.PrimaryKeys.map (specKeyText c ct)) ++ ")")) := by
  have hn := pkNames_ok_of_all (c := c) h1 h2
  simp only [getPrimaryKey, hn]
  rw [if_pos (by simp)]
  rfl

/-- Witness for C5: in the table with String(300)-, Bytes(10)- and
Int64-typed key columns the TEXT- and BLOB-mapped parts carry the (255)
suffix and the BIGINT one carries none, in declared order. -/
theorem C5_pk_suffix_witness :
    getPrimaryKey convA pkSuffixT = .ok "  PRIMARY KEY (`a`(255), `b`(255), `c`)" := by
  have h := C5_pk_suffix convA pkSuffixT (by decide) (by decide)
  exact h

/-! ### Claim C9 -/

theorem convertTable_ok_shape {c : Spanner2MysqlConverter} {ct : CreateTableStatement}
    {allTables : List CreateTableStatement} {indexes : List CreateIndexStatement}
    {s : String} (h : convertTable c ct allTables indexes = .ok s) :
    ∃ defs, tableDefs c ct allTables indexes = .ok defs ∧
      s = "CREATE TABLE " ++ (ct.TableName ++ (" (\n" ++ (goJoin ",\n" defs ++ "\n);\n"))) := by
  unfold convertTable at h
  split at h
  · cases h
  · next defs hd => exact ⟨defs, hd, (Except.ok.inj h).symm⟩

theorem convertTables_ok_shape {c : Spanner2MysqlConverter}
    {allTables : List CreateTableStatement} {indexes : List CreateIndexStatement}
    {tables : List CreateTableStatement} {s : String}
    (h : convertTables c allTables indexes tables = .ok s) :
    ∃ dl : List (List String),
      List.Forall₂ (fun ct defs => tableDefs c ct allTables indexes = .ok defs) tables dl ∧
      s = strjoin (List.zipWith
        (fun (ct : CreateTableStatement) (defs : List String) =>
          "CREATE TABLE " ++ (ct.TableName ++ (" (\n" ++ (goJoin ",\n" defs ++ "\n);\n"))))
        tables dl) := by
  induction tables generalizing s with
  | nil =>
    have hs : s = "" := (Except.ok.inj h).symm
    exact ⟨[], List.Forall₂.nil, by simp [hs, strjoin]⟩
  | cons ct rest ih =>
    unfold convertTables at h
    cases h1 : convertTable c ct allTables indexes with
    | error e => rw [h1] at h; cases h
    | ok b =>
      rw [h1] at h
      cases h2 : convertTables c allTables indexes rest with
      | error e => rw [h2] at h; cases h
      | ok r =>
        rw [h2] at h
        have hs : s = b ++ r := (Except.ok.inj h).symm
        obtain ⟨defs, hd, hbs⟩ := convertTable_ok_shape h1
        obtain ⟨dl, hf, hrs⟩ := ih h2
        refine ⟨defs :: dl, List.Forall₂.cons hd hf, ?_⟩
        simp [strjoin, hs, hbs, hrs]

theorem colLines_quoted {c : Spanner2MysqlConverter} {cols : List Column}
    {ls : List String} (h : colLines c cols = .ok ls) :
    ∀ l ∈ ls, ∃ col ∈ cols, ∃ mt, getMysqlType c col.Typ = .ok mt ∧
      l = "  `" ++ (col.Name ++ ("` " ++ (mt ++ (" " ++ (columnNullability col.NotNull ++
        (" " ++ columnDefault mt col.NotNull)))))) := by
  induction cols generalizing ls with
  | nil =>
    have hls : ls = [] := (Except.ok.inj h).symm
    simp [hls]
  | cons col rest ih =>
    unfold colLines at h
    cases h1 : columnLine c col with
    | error e => rw [h1] at h; cases h
    | ok line =>
      rw [h1] at h
      cases h2 : colLines c rest with
      | error e => rw [h2] at h; cases h
      | ok ls2 =>
        rw [h2] at h
        have hls : ls = line :: ls2 := (Except.ok.inj h).symm
        subst hls
        intro l hl
        rcases List.mem_cons.mp hl with rfl | hl2
        · unfold columnLine at h1
          cases hmt : getMysqlType c col.Typ with
          | error e => rw [hmt] at h1; cases h1
          | ok mt =>
            rw [hmt] at h1
            exact ⟨col, by simp, mt, hmt, (Except.ok.inj h1).symm⟩
        · obtain ⟨col2, hm2, mt2, hmt2, hform⟩ := ih h2 l hl2
          exact ⟨col2, by simp [hm2], mt2, hmt2, hform⟩

theorem pkKeyName_shape (c : Spanner2MysqlConverter) (pk : Key) (col : Column) :
    pkKeyName c pk col = "`" ++ (pk.Name ++ "`") ∨
    pkKeyName c pk col = ("`" ++ (pk.Name ++ "`")) ++ "(255)" := by
  cases hmt : getMysqlType c col.Typ with
  | error e =>
    left
    unfold pkKeyName
    rw [hmt]
  | ok mt =>
    rw [pkKeyName_eval hmt]
    split
    · exact Or.inr rfl
    · exact Or.inl rfl

theorem pkNamesForKey_quoted {c : Spanner2MysqlConverter} {pk : Key} {cols : List Column}
    {ns : List String} (h : pkNamesForKey c pk cols = .ok ns) :
    ∀ n ∈ ns, n = "`" ++ (pk.Name ++ "`") ∨ n = ("`" ++ (pk.Name ++ "`")) ++ "(255)" := by
  induction cols generalizing ns with
  | nil =>
    have hns : ns = [] := (Except.ok.inj h).symm
    simp [hns]
  | cons col rest ih =>
    unfold pkNamesForKey at h
    by_cases hn : (col.Name == pk.Name) = true
    · rw [if_pos hn] at h
      by_cases hN : (!col.NotNull) = true
      · rw [if_pos hN] at h; cases h
      · rw [if_neg hN] at h
        cases hr : pkNamesForKey c pk rest with
        | error e => rw [hr] at h; cases h
        | ok ms =>
          rw [hr] at h
          have hns : ns = pkKeyName c pk col :: ms := (Except.ok.inj h).symm
          subst hns
          intro n hn2
          rcases List.mem_cons.mp hn2 with rfl | hmem
          · exact pkKeyName_shape c pk col
          · exact ih hr n hmem
    · rw [if_neg hn] at h
      exact ih h

theorem pkNames_quoted {c : Spanner2MysqlConverter} {cols : List Column} {pks : List Key}
    {keyNames : List String} (h : pkNames c cols pks = .ok keyNames) :
    ∀ kn ∈ keyNames, ∃ pk ∈ pks,
      kn = "`" ++ (pk.Name ++ "`") ∨ kn = ("`" ++ (pk.Name ++ "`")) ++ "(255)" := by
  induction pks generalizing keyNames with
  | nil =>
    have hk : keyNames = [] := (Except.ok.inj h).symm
    simp [hk]
  | cons pk rest ih =>
    unfold pkNames at h
    cases h1 : pkNamesForKey c pk cols with
    | error e => rw [h1] at h; cases h
    | ok ns =>
      rw [h1] at h
      cases h2 : pkNames c cols rest with
      | error e => rw [h2] at h; cases h
      | ok ms =>
        rw [h2] at h
        have hk : keyNames = ns ++ ms := (Except.ok.inj h).symm
        subst hk
        intro kn hkn
        rcases List.mem_append.mp hkn with hkn1 | hkn2
        · exact ⟨pk, by simp, pkNamesForKey_quoted h1 kn hkn1⟩
        · obtain ⟨q, hq, hform⟩ := ih h2 kn hkn2
          exact ⟨q, by simp [hq], hform⟩

theorem getPrimaryKey_quoted {c : Spanner2MysqlConverter} {ct : CreateTableStatement}
    {s : String} (h : getPrimaryKey c ct = .ok s) :
    ∃ keyNames : List String,
      (∀ kn ∈ keyNames, ∃ pk ∈ ct.PrimaryKeys,
        kn = "`" ++ (pk.Name ++ "`") ∨ kn = ("`" ++ (pk.Name ++ "`")) ++ "(255)") ∧
      s = "  PRIMARY KEY (" ++ (goJoin ", " keyNames ++ ")") := by
  cases h1 : pkNames c ct.Columns ct.PrimaryKeys with
  | error e =>
    simp only [getPrimaryKey, h1] at h
    cases h
  | ok keyNames =>
    simp only [getPrimaryKey, h1] at h
    by_cases hlen : (ct.PrimaryKeys.length == keyNames.length) = true
    · rw [if_pos hlen] at h
      exact ⟨keyNames, pkNames_quoted h1, (Except.ok.inj h).symm⟩
    · rw [if_neg hlen] at h
      cases h

theorem getRelation_quoted {c : Spanner2MysqlConverter} {child : CreateTableStatement}
    {ps : List CreateTableStatement} {rel : String}
    (h : getRelation c child ps = .ok rel) :
    rel = "" ∨ ∃ keyColName parentName : String,
      rel = "  FOREIGN KEY (`" ++ (keyColName ++ ("`) REFERENCES `" ++
        (parentName ++ ("` (`" ++ (keyColName ++ "`)"))))) := by
  unfold getRelation at h
  split at h
  · exact Or.inl (Except.ok.inj h).symm
  · split at h
    · cases h
    · split at h
      · cases h
      · split at h
        · cases h
        · exact Or.inr ⟨_, _, (Except.ok.inj h).symm⟩

theorem getIndexes_quoted {c : Spanner2MysqlConverter} {table : CreateTableStatement}
    {idxs : List CreateIndexStatement} :
    ∀ d ∈ getIndexes c table idxs, ∃ i ∈ idxs, ∃ iname : String,
      (iname = i.IndexName ∨ iname = "") ∧
      (d = "  INDEX `" ++ (iname ++ ("` (" ++
          (goJoin ", " (i.Keys.map fun k => "`" ++ (k.Name ++ "`")) ++ ")"))) ∨
       d = "  UNIQUE (" ++
          (goJoin ", " (i.Keys.map fun k => "`" ++ (k.Name ++ "`")) ++ ")")) := by
  induction idxs with
  | nil => simp [getIndexes]
  | cons i rest ih =>
    intro d hd
    unfold getIndexes at hd
    split at hd
    · simp only at hd
      rcases List.mem_cons.mp hd with rfl | hmem
      · by_cases hu : i.Unique = true
        · by_cases hs : (c.AllowShotenIndexName &&
              decide (i.IndexName.utf8ByteSize > 255)) = true
          · refine ⟨i, by simp, "", Or.inr rfl, Or.inl ?_⟩
            simp [hu, hs, indexKeys]
          · refine ⟨i, by simp, i.IndexName, Or.inl rfl, Or.inl ?_⟩
            simp [hu, hs, indexKeys]
        · refine ⟨i, by simp, i.IndexName, Or.inl rfl, Or.inr ?_⟩
          simp [hu, indexKeys]
      · obtain ⟨i2, hi2, iname, hin, hform⟩ := ih d hmem
        exact ⟨i2, by simp [hi2], iname, hin, hform⟩
    · obtain ⟨i2, hi2, iname, hin, hform⟩ := ih d hd
      exact ⟨i2, by simp [hi2], iname, hin, hform⟩

theorem tableDefs_quoted {c : Spanner2MysqlConverter} {ct : CreateTableStatement}
    {allTables : List CreateTableStatement} {idxs : List CreateIndexStatement}
    {defs : List String} (h : tableDefs c ct allTables idxs = .ok defs) :
    ∀ d ∈ defs, quotedDef c ct idxs d := by
  cases hcols : getColumns c ct with
  | error e => simp [tableDefs, hcols] at h
  | ok cols =>
    have hcq : ∀ d ∈ cols, quotedDef c ct idxs d := by
      intro d hd
      obtain ⟨col, hm, mt, hmt, hform⟩ := colLines_quoted hcols d hd
      exact Or.inl ⟨col, hm, mt, hmt, hform⟩
    have hiq : ∀ d ∈ getIndexes c ct idxs, quotedDef c ct idxs d := by
      intro d hd
      obtain ⟨i, hi, iname, hin, hform⟩ := getIndexes_quoted d hd
      exact Or.inr (Or.inr (Or.inr ⟨i, hi, iname, hin, hform⟩))
    have hd1q : ∀ d1, pkDefs cols (getPrimaryKey c ct) = .ok d1 →
        ∀ d ∈ d1, quotedDef c ct idxs d := by
      intro d1 hpd d hd
      unfold pkDefs at hpd
      split at hpd
      · next pkStr hpk =>
        have hd1e : d1 = cols ++ [pkStr] := (Except.ok.inj hpd).symm
        subst hd1e
        rcases List.mem_append.mp hd with hdc | hdp
        · exact hcq d hdc
        · have hde : d = pkStr := by simpa using hdp
          subst hde
          obtain ⟨keyNames, hkq, hform⟩ := getPrimaryKey_quoted hpk
          exact Or.inr (Or.inl ⟨keyNames, hkq, hform⟩)
      · split at hpd
        · have hd1e : d1 = cols := (Except.ok.inj hpd).symm
          subst hd1e
          exact hcq d hd
        · cases hpd
    cases hpd : pkDefs cols (getPrimaryKey c ct) with
    | error e =>
      obtain ⟨d0, hd0⟩ := pkDefs_ok cols c ct
      rw [hd0] at hpd
      cases hpd
    | ok d1 =>
      intro d hd
      cases hrel : getRelation c ct allTables with
      | error e =>
        by_cases hek : e = GoErr.invalidKey
        · subst hek
          have hdefs : d1 ++ getIndexes c ct idxs = defs := by
            have h2 := h
            simp only [tableDefs, hcols, hpd, hrel] at h2
            simpa using h2
          rw [← hdefs] at hd
          rcases List.mem_append.mp hd with hda | hdb
          · exact hd1q d1 hpd d hda
          · exact hiq d hdb
        · have h2 := h
          simp only [tableDefs, hcols, hpd, hrel] at h2
          rw [if_neg (by simpa using hek)] at h2
          cases h2
      | ok rel =>
        have hdefs : (if (rel == "") = true then d1 else d1 ++ [rel]) ++
            getIndexes c ct idxs = defs := by
          have h2 := h
          simp only [tableDefs, hcols, hpd, hrel] at h2
          simpa using h2
        rw [← hdefs] at hd
        rcases List.mem_append.mp hd with hda | hdb
        · by_cases hre : (rel == "") = true
          · rw [if_pos hre] at hda
            exact hd1q d1 hpd d hda
          · rw [if_neg hre] at hda
            rcases List.mem_append.mp hda with hda2 | hdr
            · exact hd1q d1 hpd d hda2
            · have hdrel : d = rel := by simpa using hdr
              subst hdrel
              rcases getRelation_quoted hrel with hempty | ⟨kn, pn, hform⟩
              · exact absurd (by simp [hempty]) hre
              · exact Or.inr (Or.inr (Or.inl ⟨kn, pn, hform⟩))
        · exact hiq d hdb

/-- C9 (amended): on success the output is the fixed banner followed by one
CREATE TABLE block per input table in input order, each block being
CREATE TABLE name (\n, the comma-newline-joined definition clauses, and
\n);\n — with the table name after CREATE TABLE emitted unquoted, while
every definition clause inside a block is a column line, primary-key
clause, foreign-key clause or index clause whose column, key-part,
foreign-key, parent-table and index identifiers are all backtick-quoted. -/
theorem C9_output_format (c : Spanner2MysqlConverter) (dd : DDStatements) (s : String)
    (h : Convert c dd = .ok s) :
    ∃ dl : List (List String),
      List.Forall₂
        (fun ct defs => tableDefs c ct dd.CreateTables dd.CreateIndexes = .ok defs ∧
          ∀ d ∈ defs, quotedDef c ct dd.CreateIndexes d)
        dd.CreateTables dl ∧
      s = header ++ strjoin (List.zipWith
        (fun (ct : CreateTableStatement) (defs : List String) =>
          "CREATE TABLE " ++ (ct.TableName ++ (" (\n" ++ (goJoin ",\n" defs ++ "\n);\n"))))
        dd.CreateTables dl) := by
  unfold Convert at h
  split at h
  · cases h
  · next s0 h0 =>
    obtain ⟨dl, hf, hs⟩ := convertTables_ok_shape h0
    refine ⟨dl, ?_, by rw [← (Except.ok.inj h), hs]⟩
    exact hf.imp fun a b htd => ⟨htd, tableDefs_quoted htd⟩

/-- Counterexample for C9: converting the single-table Users document
produces output in which the table name Users appears but the backticked
form never does — the table name after CREATE TABLE is not quoted, refuting
the claim that every identifier in the output is backtick-quoted. -/
theorem C9_counterexample :
    Convert convA ⟨[usersT], []⟩ = .ok usersOut ∧
    strContains usersOut "Users" = true ∧
    strContains usersOut "`Users`" = false := by
  refine ⟨by decide, by decide, by decide⟩

/-- Witness for C9: the amended format theorem applied to the single-table
Users document. -/
theorem C9_output_format_witness :
    ∃ dl : List (List String),
      List.Forall₂
        (fun ct defs => tableDefs convA ct [usersT] [] = .ok defs ∧
          ∀ d ∈ defs, quotedDef convA ct [] d)
        [usersT] dl ∧
      usersOut = header ++ strjoin (List.zipWith
        (fun (ct : CreateTableStatement) (defs : List String) =>
          "CREATE TABLE " ++ (ct.TableName ++ (" (\n" ++ (goJoin ",\n" defs ++ "\n);\n"))))
        [usersT] dl) :=
  C9_output_format convA ⟨[usersT], []⟩ usersOut (by decide)

end Jack
